import Mathlib

/-!
Verification of `aws_lambda.py` (remote-settings-lambdas).

The Python entry points `validate_signature`, `validate_changes_collection`
and `refresh_signature` are embedded shallowly.  Remote calls (the
`kinto_http.Client` methods) and the external collaborators
(`canonical_json`, `compute_hash`, `ECDSASigner.verify`) are modelled as
fields of environment structures: each fallible call is an `Except` value,
where the error carries the Python rendering `str(e)` of the raised
exception.  Records are opaque to this code (they are only passed through
to `canonical_json`), so they are modelled as strings; timestamps are
modelled by their string rendering, which is all this code ever uses of
them (they are formatted into messages and passed through to
`canonical_json`).
-/

namespace AwsLambda

/-- Rendering `str(e)` of a raised Python exception. -/
abbrev Err := String

/-- Records are opaque payloads, only handed to the canonicalizer. -/
abbrev Record := String

/-- The `signature` object of a collection's metadata (line 71):
`dest_col['data']['signature']` holds the detached signature and the
public key used to verify it. -/
structure SigInfo where
  signature : String
  public_key : String
deriving DecidableEq, Repr

/-- Result of `client.get_collection()` (line 58), reduced to the part the
code reads: `dest_col['data']['signature']`.  `none` models a metadata
body without a `signature` key, on which line 71 raises `KeyError`. -/
structure CollectionMeta where
  signature : Option SigInfo
deriving DecidableEq, Repr

/-- The external serialization and hashing collaborators
(`kinto_signer.serializer.canonical_json`, `kinto_signer.hasher.compute_hash`). -/
structure Libs where
  canonicalJson : List Record → String → Except Err String
  computeHash : String → Except Err String

/-- One collection of the `validate_signature` loop: its address and the
behaviour of the remote client and verifier for it.  `getRecords` is keyed
by the `_sort` argument passed at line 61; `verify` models
`ECDSASigner(public_key=...).verify(serialized, signature)` (lines 80-81),
which raises on a bad signature. -/
structure CollEnv where
  bucket : String
  collection : String
  getCollection : Except Err CollectionMeta
  getRecords : String → Except Err (List Record)
  getRecordsTimestamp : Except Err String
  verify : String → SigInfo → Except Err Unit

/-- Endpoint rendering of `client.get_endpoint('collection')` (line 53). -/
def collectionEndpoint (env : CollEnv) : String :=
  "/buckets/" ++ env.bucket ++ "/collections/" ++ env.collection

/-- Message appended at lines 53-55 for each collection. -/
def headerLine (env : CollEnv) : String :=
  "Looking at " ++ collectionEndpoint env ++ ": "

/-- Diagnostic line of line 88. -/
def hashLine (computed_hash : String) : String :=
  " - Computed hash: `" ++ computed_hash ++ "`"

/-- Diagnostic line of line 89. -/
def timestampLine (timestamp : String) : String :=
  " - Collection timestamp: `" ++ timestamp ++ "`"

/-- Diagnostic line of line 90: the whole serialized content is
interpolated into the message. -/
def serializedContentLine (serialized : String) : String :=
  " - Serialized content: `" ++ serialized ++ "`"

/-- The four messages extended onto `messages` in the `except` branch
(lines 87-92). -/
def koMessages (computed_hash timestamp serialized : String) : List String :=
  ["Signature KO.",
   hashLine computed_hash,
   timestampLine timestamp,
   serializedContentLine serialized]

/-- Data flowing out of steps 1-5 into the `try` block. -/
structure StepData where
  serialized : String
  computed_hash : String
  timestamp : String
  sig : SigInfo
deriving DecidableEq, Repr

/-- Steps 1-5 of the loop body (lines 57-71).  None of these lines is
inside the `try` statement, so any error here propagates out of the
function.  The records are requested with `_sort='-last_modified'`
(line 61) and the timestamp handed to `canonical_json` is the value of the
independent `get_records_timestamp()` call (lines 62, 65). -/
def steps1to5 (libs : Libs) (env : CollEnv) : Except Err StepData :=
  match env.getCollection with
  | .error e => .error e
  | .ok dest_col =>
    match env.getRecords "-last_modified" with
    | .error e => .error e
    | .ok records =>
      match env.getRecordsTimestamp with
      | .error e => .error e
      | .ok timestamp =>
        match libs.canonicalJson records timestamp with
        | .error e => .error e
        | .ok serialized =>
          match libs.computeHash serialized with
          | .error e => .error e
          | .ok computed_hash =>
            match dest_col.signature with
            | some sig => .ok ⟨serialized, computed_hash, timestamp, sig⟩
            | none => .error "KeyError: 'signature'"

/-- Effect of `os.unlink` (line 94) on the temp key file: it no longer
exists. -/
def unlinkTempFile (_exists : Bool) : Bool := false

/-- Outcome of the `try`/`except`/`finally` block (lines 74-94):
the exception caught by `except` (if any), the messages appended, and
whether the temporary public-key file still exists afterwards. -/
structure VerifyResult where
  caught : Option Err
  msgs : List String
  tmpExistsAfter : Bool
deriving DecidableEq, Repr

/-- The `try`/`except`/`finally` block of lines 74-94.  The temp file is
created and the public key written to it (lines 75-77); the verifier
either returns (line 82-84 append "Signature OK") or raises (lines 85-92
record the exception and the diagnostic messages).  On both paths the
`finally` clause unlinks the temp file (line 94). -/
def verifyBlock (env : CollEnv) (d : StepData) : VerifyResult :=
  let tmpExists := true
  match env.verify d.serialized d.sig with
  | .ok () =>
      { caught := none,
        msgs := ["Signature OK"],
        tmpExistsAfter := unlinkTempFile tmpExists }
  | .error e =>
      { caught := some e,
        msgs := koMessages d.computed_hash d.timestamp d.serialized,
        tmpExistsAfter := unlinkTempFile tmpExists }

/-- The mutable loop state of `validate_signature`: the `exception`
variable (line 46, overwritten at line 86) and the `messages` list
(line 47). -/
structure RunState where
  exception : Option Err
  messages : List String
deriving DecidableEq, Repr

/-- One iteration of the loop (lines 49-94).  An error from steps 1-5 is
returned as `.error` (it propagates, uncaught); an exception inside the
`try` block is caught, overwrites `exception`, and the loop goes on. -/
def processCollection (libs : Libs) (env : CollEnv) (st : RunState) :
    Except Err RunState :=
  match steps1to5 libs env with
  | .error e => .error e
  | .ok d =>
      let vr := verifyBlock env d
      .ok { exception := match vr.caught with
                         | some e => some e
                         | none => st.exception,
            messages := st.messages ++ [headerLine env] ++ vr.msgs }

/-- The whole `for collection in collections` loop. -/
def runLoop (libs : Libs) : List CollEnv → RunState → Except Err RunState
  | [], st => .ok st
  | env :: rest, st =>
      match processCollection libs env st with
      | .error e => .error e
      | .ok st' => runLoop libs rest st'

/-- Python's `sep.join(l)`. -/
def joinWith (sep : String) : List String → String
  | [] => ""
  | [x] => x
  | x :: y :: rest => x ++ sep ++ joinWith sep (y :: rest)

/-- Message of the `ValidationError` raised at line 98:
`"{}:\n{}".format(exception, "\n".join(messages))`. -/
def mkValidationMessage (e : Err) (messages : List String) : String :=
  e ++ ":\n" ++ joinWith "\n" messages

/-- How a `validate_signature` run can fail: an exception that propagates
uncaught out of the loop, or the `ValidationError` raised at line 98. -/
inductive RunError where
  | uncaught (e : Err)
  | validationError (msg : String)
deriving DecidableEq, Repr

/-- The `validate_signature` entry point (lines 43-98) over a list of
per-collection environments. -/
def validate_signature (libs : Libs) (envs : List CollEnv) :
    Except RunError Unit :=
  match runLoop libs envs ⟨none, []⟩ with
  | .error e => .error (.uncaught e)
  | .ok st =>
      match st.exception with
      | some e => .error (.validationError (mkValidationMessage e st.messages))
      | none => .ok ()

/-- Messages contributed by one collection when its iteration completes
(header plus the `try` block's messages); used to characterize the loop. -/
def collMessages (libs : Libs) (env : CollEnv) : List String :=
  match steps1to5 libs env with
  | .error _ => [headerLine env]
  | .ok d => headerLine env :: (verifyBlock env d).msgs

/-- The exception caught (if any) during one completed iteration. -/
def collCaught (libs : Libs) (env : CollEnv) : Option Err :=
  match steps1to5 libs env with
  | .error _ => none
  | .ok d => (verifyBlock env d).caught

/-- Concatenation of all collections' messages, in loop order. -/
def allMessages (libs : Libs) : List CollEnv → List String
  | [] => []
  | env :: rest => collMessages libs env ++ allMessages libs rest

/-- The value of the `exception` variable after the loop: the last caught
exception, starting from `acc`. -/
def finalCaught (libs : Libs) : List CollEnv → Option Err → Option Err
  | [], acc => acc
  | env :: rest, acc =>
      finalCaught libs rest
        (match collCaught libs env with
         | some e => some e
         | none => acc)

/-! `validate_changes_collection` (lines 101-126).  The code compares
`str(etag) == str(last_modified)` (line 119), so the values on both sides
are modelled as Python values (integer or string) together with their
`str()` rendering. -/

/-- A Python value as stored in a record field / returned as an ETag. -/
inductive PyVal where
  | int (n : Int)
  | str (s : String)
deriving DecidableEq, Repr

/-- Python's `str()` on such a value (decimal rendering of integers). -/
def pyStr : PyVal → String
  | .int n => toString n
  | .str s => s

/-- One record of the registry ("changes") collection: the referenced
bucket and collection and the recorded `last_modified` (lines 115-117). -/
structure ChangeEntry where
  bucket : String
  collection : String
  last_modified : PyVal
deriving DecidableEq, Repr

/-- Remote behaviour seen by `validate_changes_collection`:
`client.get_records()` on the registry (line 111) and
`client.get_records_timestamp(bucket=bid, collection=cid)` (line 118). -/
structure ChangesEnv where
  getChangeRecords : Except Err (List ChangeEntry)
  getRecordsTimestamp : String → String → Except Err PyVal

/-- How a `validate_changes_collection` run can fail: an uncaught remote
exception, or the `ValueError` raised at line 126. -/
inductive ChangesError where
  | uncaught (e : Err)
  | valueError (msg : String)
deriving DecidableEq, Repr

/-- The string-rendering comparison of line 119 for one entry, `false`
also when the live fetch would fail (the loop never reaches the
comparison then). -/
def entryMatches (env : ChangesEnv) (entry : ChangeEntry) : Bool :=
  match env.getRecordsTimestamp entry.bucket entry.collection with
  | .ok etag => pyStr etag = pyStr entry.last_modified
  | .error _ => false

/-- The `for collection in collections` loop of lines 114-123, threading
the `everything_ok` flag (line 113). -/
def changesLoop (env : ChangesEnv) : List ChangeEntry → Bool → Except Err Bool
  | [], ok => .ok ok
  | entry :: rest, ok =>
      match env.getRecordsTimestamp entry.bucket entry.collection with
      | .error e => .error e
      | .ok etag =>
          let ok' := if pyStr etag = pyStr entry.last_modified then ok else false
          changesLoop env rest ok'

/-- The `validate_changes_collection` entry point (lines 101-126). -/
def validate_changes_collection (env : ChangesEnv) : Except ChangesError Unit :=
  match env.getChangeRecords with
  | .error e => .error (.uncaught e)
  | .ok entries =>
      match changesLoop env entries true with
      | .error e => .error (.uncaught e)
      | .ok ok =>
          if ok then .ok ()
          else .error (.valueError "One of the collection did not validate.")

/-! `refresh_signature` (lines 134-160). -/

/-- The metadata body `...['data']` read from `get_collection` (line 147)
or returned by `patch_collection` (line 155), reduced to the fields the
code reads: `status` and `last_modified`. -/
structure RefreshMeta where
  status : String
  last_modified : Int
deriving DecidableEq, Repr

/-- One collection of the `refresh_signature` loop: the remote metadata
fetch and the response to `patch_collection(data=\x7b'status': v\x7d)`,
keyed by the status value `v` sent. -/
structure RefreshClient where
  bucket : String
  collection : String
  getCollectionData : RefreshMeta
  patchCollection : String → RefreshMeta

/-- What one iteration of `refresh_signature` emits (line 159-160) and the
patch calls it issued: the status printed, the `last_modified` printed,
and the list of status values sent to `patch_collection`, in order. -/
structure RefreshReport where
  reportedStatus : String
  reportedTimestamp : Int
  patchCalls : List String
deriving DecidableEq, Repr

/-- One iteration of the `refresh_signature` loop (lines 139-160): fetch
the metadata, patch `status` to `"to-sign"` when the fetched status is
`"signed"` (taking the reported timestamp from the patch response), and
report `collection_metadata['status']` with the reported timestamp. -/
def refreshStep (c : RefreshClient) : RefreshReport :=
  let collection_metadata := c.getCollectionData
  let last_modified := collection_metadata.last_modified
  if collection_metadata.status = "signed" then
    let new_metadata := c.patchCollection "to-sign"
    { reportedStatus := collection_metadata.status,
      reportedTimestamp := new_metadata.last_modified,
      patchCalls := ["to-sign"] }
  else
    { reportedStatus := collection_metadata.status,
      reportedTimestamp := last_modified,
      patchCalls := [] }

/-- The `refresh_signature` loop over its collection list. -/
def refresh_signature (clients : List RefreshClient) : List RefreshReport :=
  clients.map refreshStep

/-- Python's one-element-at-most split: `splitOnce sep l` finds the first
occurrence of `sep` in `l` and returns the parts before and after it. -/
def splitOnce (sep : Char) : List Char → Option (List Char × List Char)
  | [] => none
  | c :: cs =>
      if c = sep then some ([], cs)
      else match splitOnce sep cs with
           | none => none
           | some (a, b) => some (c :: a, b)

/-- Python's `s.split(sep, 1)`: split at the first occurrence of `sep`
only; a separator-free string yields a one-element list. -/
def pySplit1 (sep : Char) (s : String) : List String :=
  match splitOnce sep s.data with
  | none => [s]
  | some (a, b) => [String.mk a, String.mk b]

/-- Line 137: `tuple(os.getenv("REFRESH_SIGNATURE_AUTH").split(':', 1))`,
as the list of components of the credential string. -/
def refreshSignatureAuth (cred : String) : List String :=
  pySplit1 ':' cred

/-! Helper lemmas. -/

/-- An element of the joined list occurs verbatim inside the join. -/
theorem joinWith_mem_split (sep : String) :
    ∀ (l : List String) (x : String), x ∈ l →
      ∃ p q, joinWith sep l = p ++ x ++ q
  | [], x, h => absurd h (List.not_mem_nil x)
  | [a], x, h => by
      rcases List.mem_singleton.mp h with rfl
      exact ⟨"", "", by simp [joinWith]⟩
  | a :: b :: rest, x, h => by
      rcases List.mem_cons.mp h with rfl | h'
      · exact ⟨"", sep ++ joinWith sep (b :: rest),
          by simp [joinWith, String.append_assoc]⟩
      · obtain ⟨p, q, hpq⟩ := joinWith_mem_split sep (b :: rest) x h'
        exact ⟨a ++ sep ++ p, q,
          by simp [joinWith, hpq, String.append_assoc]⟩

/-- A line of the accumulated messages occurs verbatim inside the
`ValidationError` message built from them. -/
theorem mem_mkValidationMessage (e : Err) (messages : List String)
    (x : String) (h : x ∈ messages) :
    ∃ p q, mkValidationMessage e messages = p ++ x ++ q := by
  obtain ⟨p, q, hpq⟩ := joinWith_mem_split "\n" messages x h
  exact ⟨e ++ ":\n" ++ p, q,
    by simp [mkValidationMessage, hpq, String.append_assoc]⟩

/-- The header line is always among a collection's messages. -/
theorem headerLine_mem_collMessages (libs : Libs) (env : CollEnv) :
    headerLine env ∈ collMessages libs env := by
  unfold collMessages
  cases steps1to5 libs env <;> simp

/-- When steps 1-5 succeeded and the verify block caught an exception, the
hash and timestamp diagnostic lines are among the collection's messages. -/
theorem ko_lines_mem_collMessages (libs : Libs) (env : CollEnv)
    (d : StepData) (e : Err) (hd : steps1to5 libs env = .ok d)
    (he : (verifyBlock env d).caught = some e) :
    hashLine d.computed_hash ∈ collMessages libs env ∧
      timestampLine d.timestamp ∈ collMessages libs env := by
  unfold collMessages
  rw [hd]
  unfold verifyBlock at he ⊢
  cases hv : env.verify d.serialized d.sig with
  | ok u => rw [hv] at he; simp at he
  | error e' => simp [hv, koMessages]

/-- Messages of a member collection occur in the run's full message list. -/
theorem mem_allMessages (libs : Libs) :
    ∀ (envs : List CollEnv) (env : CollEnv) (x : String),
      env ∈ envs → x ∈ collMessages libs env → x ∈ allMessages libs envs
  | [], _, _, h, _ => absurd h (List.not_mem_nil _)
  | e0 :: rest, env, x, h, hx => by
      rcases List.mem_cons.mp h with rfl | h'
      · exact List.mem_append.mpr (Or.inl hx)
      · exact List.mem_append.mpr
          (Or.inr (mem_allMessages libs rest env x h' hx))

/-- Characterization of the loop when no iteration raises out of
steps 1-5: it completes, the final `exception` is the fold of the caught
exceptions, and the messages are the concatenation of every collection's
messages, in order. -/
theorem runLoop_eq_of_ok (libs : Libs) :
    ∀ (envs : List CollEnv) (st : RunState),
      (∀ env ∈ envs, (steps1to5 libs env).isOk = true) →
      runLoop libs envs st =
        .ok ⟨finalCaught libs envs st.exception,
             st.messages ++ allMessages libs envs⟩
  | [], st, _ => by simp [runLoop, finalCaught, allMessages]
  | env :: rest, st, h => by
      have h1 : (steps1to5 libs env).isOk = true :=
        h env (List.mem_cons_self env rest)
      cases hs : steps1to5 libs env with
      | error e => rw [hs] at h1; simp [Except.isOk, Except.toBool] at h1
      | ok d =>
          have hrest : ∀ e ∈ rest, (steps1to5 libs e).isOk = true :=
            fun e he => h e (List.mem_cons_of_mem env he)
          have hpc : processCollection libs env st =
              .ok { exception := match (verifyBlock env d).caught with
                                 | some e => some e
                                 | none => st.exception,
                    messages := st.messages ++ [headerLine env] ++
                      (verifyBlock env d).msgs } := by
            rw [processCollection, hs]
          simp only [runLoop, hpc]
          rw [runLoop_eq_of_ok libs rest _ hrest]
          simp [finalCaught, collCaught, hs, allMessages, collMessages,
            List.append_assoc]

/-- A caught exception is never dropped by the rest of the fold. -/
theorem finalCaught_ne_none (libs : Libs) :
    ∀ (envs : List CollEnv) (e : Err),
      finalCaught libs envs (some e) ≠ none
  | [], e => by simp [finalCaught]
  | env :: rest, e => by
      rw [finalCaught]
      cases hc : collCaught libs env with
      | some e' => exact finalCaught_ne_none libs rest e'
      | none => exact finalCaught_ne_none libs rest e

/-- When some member collection caught an exception, the final
`exception` variable is set. -/
theorem finalCaught_of_mem (libs : Libs) :
    ∀ (envs : List CollEnv) (env : CollEnv) (e : Err) (acc : Option Err),
      env ∈ envs → collCaught libs env = some e →
      finalCaught libs envs acc ≠ none
  | [], _, _, _, h, _ => absurd h (List.not_mem_nil _)
  | e0 :: rest, env, e, acc, h, hc => by
      rcases List.mem_cons.mp h with rfl | h'
      · rw [finalCaught, hc]
        exact finalCaught_ne_none libs rest e
      · rw [finalCaught]
        cases collCaught libs e0 with
        | some e' => exact finalCaught_of_mem libs rest env e e' h' hc
        | none => exact finalCaught_of_mem libs rest env e acc h' hc

/-- The fold distributes over list concatenation. -/
theorem finalCaught_append (libs : Libs) :
    ∀ (l₁ l₂ : List CollEnv) (acc : Option Err),
      finalCaught libs (l₁ ++ l₂) acc =
        finalCaught libs l₂ (finalCaught libs l₁ acc)
  | [], l₂, acc => by simp [finalCaught]
  | env :: rest, l₂, acc => by
      rw [List.cons_append, finalCaught, finalCaught]
      exact finalCaught_append libs rest l₂ _

/-- Collections that caught nothing leave the `exception` variable as it
was. -/
theorem finalCaught_of_all_none (libs : Libs) :
    ∀ (envs : List CollEnv) (acc : Option Err),
      (∀ env ∈ envs, collCaught libs env = none) →
      finalCaught libs envs acc = acc
  | [], _, _ => by simp [finalCaught]
  | env :: rest, acc, h => by
      rw [finalCaught, h env (List.mem_cons_self env rest)]
      exact finalCaught_of_all_none libs rest acc
        (fun e he => h e (List.mem_cons_of_mem env he))

/-- When steps 1-5 succeeded and the verifier raised, the iteration's
caught exception is that error. -/
theorem collCaught_eq_some (libs : Libs) (env : CollEnv) (d : StepData)
    (e : Err) (hd : steps1to5 libs env = .ok d)
    (hv : env.verify d.serialized d.sig = .error e) :
    collCaught libs env = some e := by
  simp only [collCaught, verifyBlock, hd, hv]

/-- When steps 1-5 succeeded and the verifier returned, the iteration
caught nothing. -/
theorem collCaught_eq_none (libs : Libs) (env : CollEnv) (d : StepData)
    (hd : steps1to5 libs env = .ok d)
    (hv : env.verify d.serialized d.sig = .ok ()) :
    collCaught libs env = none := by
  simp only [collCaught, verifyBlock, hd, hv]

/-! Concrete demonstration values, used as inputs of witnesses and
counterexamples. -/

/-- Concrete stand-ins for the external serializer and hasher. -/
def demoLibs : Libs :=
  { canonicalJson := fun rs t => .ok (joinWith "," rs ++ "|" ++ t),
    computeHash := fun s => .ok ("hash<" ++ s ++ ">") }

/-- A collection whose signature verifies. -/
def okEnv : CollEnv :=
  { bucket := "blocklists", collection := "certificates",
    getCollection := .ok ⟨some ⟨"sigbytes", "pubkey"⟩⟩,
    getRecords := fun _ => .ok ["r1"],
    getRecordsTimestamp := .ok "1500",
    verify := fun _ _ => .ok () }

/-- A collection whose signature verification raises. -/
def koEnv : CollEnv :=
  { okEnv with collection := "addons",
               verify := fun _ _ => .error "Invalid signature" }

/-- A second collection whose signature verification raises, with a
distinct error. -/
def koEnv2 : CollEnv :=
  { okEnv with collection := "gfx",
               verify := fun _ _ => .error "Invalid signature 2" }

/-- A collection whose metadata fetch (step 1) raises. -/
def boomEnv : CollEnv :=
  { okEnv with collection := "plugins", getCollection := .error "boom" }

/-- The step data steps 1-5 produce for `okEnv`-shaped collections under
`demoLibs`. -/
def demoStepData : StepData :=
  ⟨"r1|1500", "hash<r1|1500>", "1500", ⟨"sigbytes", "pubkey"⟩⟩

/-! Claim theorems. -/

/-- C1, counterexample: with a first collection whose step-1 metadata
fetch raises `"boom"` and a second collection whose verification would
fail, the run aborts at once with the raw uncaught exception — no fail
entry is recorded for the first collection, no `ValidationError` is
raised, and the second collection is never examined, contradicting the
claim that exceptions from steps 1-5 are recorded and the loop
continues. -/
theorem validate_signature_step15_exception_aborts_cex :
    validate_signature demoLibs [boomEnv, koEnv] =
      .error (.uncaught "boom") := rfl

/-- C1, amended: only exceptions raised inside the `try` block (public-key
staging and signature verification, steps 6-7) are recorded as the
collection's fail entry with the loop continuing to the next collection;
an exception raised during steps 1-5 (metadata fetch, record fetch,
timestamp fetch, serialization, hash, signature lookup) propagates
uncaught and terminates the run mid-loop. -/
theorem validate_signature_steps15_fatal_verify_recovered :
    (∀ (libs : Libs) (env : CollEnv) (rest : List CollEnv) (st : RunState)
        (d : StepData), steps1to5 libs env = .ok d →
        ∃ st', processCollection libs env st = .ok st' ∧
          runLoop libs (env :: rest) st = runLoop libs rest st') ∧
    (∀ (libs : Libs) (env : CollEnv) (rest : List CollEnv) (st : RunState)
        (e : Err), steps1to5 libs env = .error e →
        runLoop libs (env :: rest) st = .error e) := by
  constructor
  · intro libs env rest st d hd
    refine ⟨{ exception := match (verifyBlock env d).caught with
                           | some e => some e
                           | none => st.exception,
              messages := st.messages ++ [headerLine env] ++
                (verifyBlock env d).msgs }, ?_, ?_⟩
    · rw [processCollection, hd]
    · simp only [runLoop, processCollection, hd]
  · intro libs env rest st e he
    simp only [runLoop, processCollection, he]

/-- C1 witness: the amended claim at concrete inputs — a verification
failure is absorbed and the loop continues; a step-1 failure aborts. -/
theorem validate_signature_steps15_fatal_verify_recovered_witness :
    (∃ st', processCollection demoLibs koEnv ⟨none, []⟩ = .ok st' ∧
        runLoop demoLibs [koEnv, okEnv] ⟨none, []⟩ =
          runLoop demoLibs [okEnv] st') ∧
    runLoop demoLibs [boomEnv, okEnv] ⟨none, []⟩ = .error "boom" :=
  ⟨validate_signature_steps15_fatal_verify_recovered.1 demoLibs koEnv
      [okEnv] ⟨none, []⟩ demoStepData rfl,
   validate_signature_steps15_fatal_verify_recovered.2 demoLibs boomEnv
      [okEnv] ⟨none, []⟩ "boom" rfl⟩

/-- C6: on every exit path of the verification block — verification
success, verification failure, or an exception raised by the verifier —
the temporary public-key file no longer exists afterwards (the `finally`
clause unlinks it). -/
theorem verifyBlock_always_unlinks_temp_key (env : CollEnv) (d : StepData) :
    (verifyBlock env d).tmpExistsAfter = false := by
  unfold verifyBlock
  cases env.verify d.serialized d.sig <;> rfl

/-- C7, counterexample: the serialized-content diagnostic line recorded
for a failing collection is not bounded by any constant — its length grows
with the serialized content, because the entire serialization is
interpolated into it. -/
theorem serializedContentLine_unbounded_cex :
    ¬ ∃ c : Nat, ∀ s : String, (serializedContentLine s).length ≤ c := by
  rintro ⟨c, hc⟩
  have h := hc (String.mk (List.replicate (c + 1) 'a'))
  simp [serializedContentLine, String.length_append, String.length] at h
  omega

/-- C7, amended: the fail entry's canonical-bytes diagnostic embeds the
entire serialization, not an excerpt: the diagnostic line is one of the
recorded fail messages, it contains the serialized content verbatim, and
its length is the serialization's length plus 25, hence unbounded. -/
theorem koMessages_embed_entire_serialization
    (computed_hash timestamp serialized : String) :
    serializedContentLine serialized ∈
        koMessages computed_hash timestamp serialized ∧
      (∃ p q, serializedContentLine serialized = p ++ serialized ++ q) ∧
      (serializedContentLine serialized).length = serialized.length + 25 := by
  refine ⟨by simp [koMessages], ⟨" - Serialized content: `", "`", rfl⟩, ?_⟩
  show ((" - Serialized content: `" ++ serialized) ++ "`").length =
    serialized.length + 25
  have h1 : (" - Serialized content: `" : String).length = 24 := rfl
  have h2 : ("`" : String).length = 1 := rfl
  rw [String.length_append, String.length_append, h1, h2]
  omega

/-- C8: the canonical bytes produced by steps 1-5 come from the record
set requested with sort order `-last_modified` together with the
timestamp returned by the independent `get_records_timestamp` call — the
timestamp handed to the canonicalizer is exactly that fetched value. -/
theorem steps1to5_canonicalizes_fetched_data (libs : Libs) (env : CollEnv)
    (d : StepData) (h : steps1to5 libs env = .ok d) :
    ∃ records, env.getRecords "-last_modified" = .ok records ∧
      env.getRecordsTimestamp = .ok d.timestamp ∧
      libs.canonicalJson records d.timestamp = .ok d.serialized := by
  unfold steps1to5 at h
  cases hgc : env.getCollection with
  | error e => simp [hgc] at h
  | ok dest_col =>
  simp only [hgc] at h
  cases hgr : env.getRecords "-last_modified" with
  | error e => simp [hgr] at h
  | ok records =>
  simp only [hgr] at h
  cases hgt : env.getRecordsTimestamp with
  | error e => simp [hgt] at h
  | ok timestamp =>
  simp only [hgt] at h
  cases hcj : libs.canonicalJson records timestamp with
  | error e => simp [hcj] at h
  | ok serialized =>
  simp only [hcj] at h
  cases hch : libs.computeHash serialized with
  | error e => simp [hch] at h
  | ok computed_hash =>
  simp only [hch] at h
  cases hsig : dest_col.signature with
  | none => simp [hsig] at h
  | some sig =>
  simp only [hsig] at h
  cases h
  exact ⟨records, rfl, rfl, hcj⟩

/-- C8 witness: the dataflow fact at a concrete collection. -/
theorem steps1to5_canonicalizes_fetched_data_witness :
    ∃ records, okEnv.getRecords "-last_modified" = .ok records ∧
      okEnv.getRecordsTimestamp = .ok demoStepData.timestamp ∧
      demoLibs.canonicalJson records demoStepData.timestamp =
        .ok demoStepData.serialized :=
  steps1to5_canonicalizes_fetched_data demoLibs okEnv demoStepData rfl

/-- C2: when every collection's steps 1-5 succeed and at least one
collection's signature verification fails, the run processes every
collection (every header line occurs in the final message) and raises a
`ValidationError` whose message contains, for every failed collection,
that collection's computed digest and timestamp diagnostic lines. -/
theorem validate_signature_reports_every_failure
    (libs : Libs) (envs : List CollEnv)
    (hok : ∀ env ∈ envs, (steps1to5 libs env).isOk = true)
    (hfail : ∃ env ∈ envs, ∃ d e, steps1to5 libs env = .ok d ∧
      env.verify d.serialized d.sig = .error e) :
    ∃ msg, validate_signature libs envs = .error (.validationError msg) ∧
      (∀ env ∈ envs, ∃ p q, msg = p ++ headerLine env ++ q) ∧
      (∀ env ∈ envs, ∀ d e, steps1to5 libs env = .ok d →
        env.verify d.serialized d.sig = .error e →
        (∃ p q, msg = p ++ hashLine d.computed_hash ++ q) ∧
          (∃ p q, msg = p ++ timestampLine d.timestamp ++ q)) := by
  have hrun := runLoop_eq_of_ok libs envs ⟨none, []⟩ hok
  obtain ⟨env₀, h₀, d₀, e₀, hd₀, hv₀⟩ := hfail
  have hc₀ := collCaught_eq_some libs env₀ d₀ e₀ hd₀ hv₀
  have hne := finalCaught_of_mem libs envs env₀ e₀ none h₀ hc₀
  obtain ⟨efin, hefin⟩ : ∃ x, finalCaught libs envs none = some x := by
    cases hfc : finalCaught libs envs none with
    | none => exact absurd hfc hne
    | some x => exact ⟨x, rfl⟩
  refine ⟨mkValidationMessage efin (allMessages libs envs), ?_, ?_, ?_⟩
  · simp [validate_signature, hrun, hefin]
  · intro env he
    exact mem_mkValidationMessage efin _ _
      (mem_allMessages libs envs env _ he (headerLine_mem_collMessages libs env))
  · intro env he d e hd hv
    have hcaught : (verifyBlock env d).caught = some e := by
      simp only [verifyBlock, hv]
    obtain ⟨hh, ht⟩ := ko_lines_mem_collMessages libs env d e hd hcaught
    exact ⟨mem_mkValidationMessage efin _ _
        (mem_allMessages libs envs env _ he hh),
      mem_mkValidationMessage efin _ _
        (mem_allMessages libs envs env _ he ht)⟩

/-- C2 witness: three concrete collections, the first and third of which
fail verification while the second passes. -/
theorem validate_signature_reports_every_failure_witness :
    ∃ msg, validate_signature demoLibs [koEnv, okEnv, koEnv2] =
        .error (.validationError msg) ∧
      (∀ env ∈ [koEnv, okEnv, koEnv2],
        ∃ p q, msg = p ++ headerLine env ++ q) ∧
      (∀ env ∈ [koEnv, okEnv, koEnv2], ∀ d e,
        steps1to5 demoLibs env = .ok d →
        env.verify d.serialized d.sig = .error e →
        (∃ p q, msg = p ++ hashLine d.computed_hash ++ q) ∧
          (∃ p q, msg = p ++ timestampLine d.timestamp ++ q)) :=
  validate_signature_reports_every_failure demoLibs [koEnv, okEnv, koEnv2]
    (by intro env he; fin_cases he <;> rfl)
    ⟨koEnv, by simp, demoStepData, "Invalid signature", rfl, rfl⟩

/-- C9: when the collection at a given position catches exception `e₀` and
every later collection catches nothing (its verification succeeds), the
raised `ValidationError` message is exactly `e₀` — the most recently
caught exception, whatever earlier collections caught — followed by the
concatenation of all accumulated per-collection messages. -/
theorem validate_signature_message_prefix_is_last_exception
    (libs : Libs) (before after : List CollEnv) (env₀ : CollEnv)
    (d₀ : StepData) (e₀ : Err)
    (hok : ∀ env ∈ before ++ env₀ :: after, (steps1to5 libs env).isOk = true)
    (hd₀ : steps1to5 libs env₀ = .ok d₀)
    (hv₀ : env₀.verify d₀.serialized d₀.sig = .error e₀)
    (hafter : ∀ env ∈ after, ∀ d, steps1to5 libs env = .ok d →
      env.verify d.serialized d.sig = .ok ()) :
    validate_signature libs (before ++ env₀ :: after) =
      .error (.validationError
        (e₀ ++ ":\n" ++
          joinWith "\n" (allMessages libs (before ++ env₀ :: after)))) := by
  have hrun := runLoop_eq_of_ok libs (before ++ env₀ :: after) ⟨none, []⟩ hok
  have hnone : ∀ env ∈ after, collCaught libs env = none := by
    intro env he
    cases hs : steps1to5 libs env with
    | error e =>
        have h1 := hok env (by simp [he])
        rw [hs] at h1
        simp [Except.isOk, Except.toBool] at h1
    | ok d => exact collCaught_eq_none libs env d hs (hafter env he d hs)
  have hfc : finalCaught libs (before ++ env₀ :: after) none = some e₀ := by
    rw [finalCaught_append]
    rw [finalCaught, collCaught_eq_some libs env₀ d₀ e₀ hd₀ hv₀]
    exact finalCaught_of_all_none libs after (some e₀) hnone
  simp [validate_signature, hrun, hfc, mkValidationMessage]

/-- C9 witness: two failing collections; the message prefix is the second
(most recent) exception only. -/
theorem validate_signature_message_prefix_is_last_exception_witness :
    validate_signature demoLibs ([koEnv] ++ koEnv2 :: [okEnv]) =
      .error (.validationError
        ("Invalid signature 2" ++ ":\n" ++
          joinWith "\n" (allMessages demoLibs ([koEnv] ++ koEnv2 :: [okEnv])))) :=
  validate_signature_message_prefix_is_last_exception demoLibs [koEnv]
    [okEnv] koEnv2 demoStepData "Invalid signature 2"
    (by intro env he; fin_cases he <;> rfl) rfl rfl
    (by intro env he d hd
        fin_cases he
        cases hd
        rfl)

/-- A concrete signed collection for the lifecycle driver: the remote
patch response carries the requested status and a fresh timestamp. -/
def signedDemoClient : RefreshClient :=
  { bucket := "blocklists", collection := "addons",
    getCollectionData := ⟨"signed", 500⟩,
    patchCollection := fun s => ⟨s, 600⟩ }

/-- A concrete collection already awaiting signature. -/
def toSignDemoClient : RefreshClient :=
  { bucket := "blocklists", collection := "gfx",
    getCollectionData := ⟨"to-sign", 500⟩,
    patchCollection := fun s => ⟨s, 600⟩ }

/-- C3, counterexample: for a collection fetched with status `"signed"`,
the patch flipping the status to `"to-sign"` is issued, yet the status
reported for the collection is the pre-patch `"signed"`, not `"to-sign"`
— line 159 prints `collection_metadata['status']`, the value fetched
before the patch. -/
theorem refreshStep_reports_old_status_cex :
    (refreshStep signedDemoClient).patchCalls = ["to-sign"] ∧
      (refreshStep signedDemoClient).reportedStatus = "signed" ∧
      (refreshStep signedDemoClient).reportedStatus ≠ "to-sign" := by
  refine ⟨rfl, rfl, ?_⟩
  decide

/-- C3, amended: for every collection whose fetched metadata has status
`"signed"`, the status-flipping patch is issued, but the status emitted
for that collection is the pre-patch status `"signed"` from the original
fetch, not the new work-requesting state. -/
theorem refreshStep_reports_prepatch_status (c : RefreshClient)
    (h : c.getCollectionData.status = "signed") :
    (refreshStep c).patchCalls = ["to-sign"] ∧
      (refreshStep c).reportedStatus = c.getCollectionData.status := by
  simp [refreshStep, h]

/-- C3 witness: the amended claim at the concrete signed collection. -/
theorem refreshStep_reports_prepatch_status_witness :
    (refreshStep signedDemoClient).patchCalls = ["to-sign"] ∧
      (refreshStep signedDemoClient).reportedStatus =
        signedDemoClient.getCollectionData.status :=
  refreshStep_reports_prepatch_status signedDemoClient rfl

/-- C4: for every collection of a `refresh_signature` run, if the fetched
status is `"signed"` then exactly one patch with payload
`status := "to-sign"` is issued and the reported timestamp is the
`last_modified` of the patch response; for any other status no patch is
issued and the reported timestamp is the `last_modified` of the original
fetch. -/
theorem refresh_signature_patch_policy
    (clients : List RefreshClient) (c : RefreshClient) (hc : c ∈ clients) :
    refreshStep c ∈ refresh_signature clients ∧
      (c.getCollectionData.status = "signed" →
        (refreshStep c).patchCalls = ["to-sign"] ∧
          (refreshStep c).reportedTimestamp =
            (c.patchCollection "to-sign").last_modified) ∧
      (c.getCollectionData.status ≠ "signed" →
        (refreshStep c).patchCalls = [] ∧
          (refreshStep c).reportedTimestamp =
            c.getCollectionData.last_modified) := by
  refine ⟨List.mem_map_of_mem refreshStep hc, ?_, ?_⟩
  · intro h
    simp [refreshStep, h]
  · intro h
    simp [refreshStep, h]

/-- C4 witness: the policy at the two concrete collections (signed, and
already to-sign) of a two-collection run. -/
theorem refresh_signature_patch_policy_witness :
    ((refreshStep signedDemoClient ∈
        refresh_signature [signedDemoClient, toSignDemoClient] ∧
      (signedDemoClient.getCollectionData.status = "signed" →
        (refreshStep signedDemoClient).patchCalls = ["to-sign"] ∧
          (refreshStep signedDemoClient).reportedTimestamp =
            (signedDemoClient.patchCollection "to-sign").last_modified) ∧
      (signedDemoClient.getCollectionData.status ≠ "signed" →
        (refreshStep signedDemoClient).patchCalls = [] ∧
          (refreshStep signedDemoClient).reportedTimestamp =
            signedDemoClient.getCollectionData.last_modified)) ∧
     (refreshStep toSignDemoClient ∈
        refresh_signature [signedDemoClient, toSignDemoClient] ∧
      (toSignDemoClient.getCollectionData.status = "signed" →
        (refreshStep toSignDemoClient).patchCalls = ["to-sign"] ∧
          (refreshStep toSignDemoClient).reportedTimestamp =
            (toSignDemoClient.patchCollection "to-sign").last_modified) ∧
      (toSignDemoClient.getCollectionData.status ≠ "signed" →
        (refreshStep toSignDemoClient).patchCalls = [] ∧
          (refreshStep toSignDemoClient).reportedTimestamp =
            toSignDemoClient.getCollectionData.last_modified))) :=
  ⟨refresh_signature_patch_policy [signedDemoClient, toSignDemoClient]
      signedDemoClient (List.mem_cons_self _ _),
   refresh_signature_patch_policy [signedDemoClient, toSignDemoClient]
      toSignDemoClient (List.mem_cons_of_mem _ (List.mem_cons_self _ _))⟩

/-- Characterization of the consistency-check loop when every live fetch
succeeds: it examines every entry and returns the conjunction of the
incoming flag with all the per-entry string comparisons. -/
theorem changesLoop_eq_of_ok (env : ChangesEnv) :
    ∀ (entries : List ChangeEntry) (ok : Bool),
      (∀ entry ∈ entries,
        (env.getRecordsTimestamp entry.bucket entry.collection).isOk = true) →
      changesLoop env entries ok = .ok (ok && entries.all (entryMatches env))
  | [], ok, _ => by simp [changesLoop]
  | entry :: rest, ok, h => by
      have h1 := h entry (List.mem_cons_self entry rest)
      cases hg : env.getRecordsTimestamp entry.bucket entry.collection with
      | error e => rw [hg] at h1; simp [Except.isOk, Except.toBool] at h1
      | ok etag =>
          simp only [changesLoop, hg]
          rw [changesLoop_eq_of_ok env rest _
            (fun x hx => h x (List.mem_cons_of_mem entry hx))]
          by_cases hm : pyStr etag = pyStr entry.last_modified
          · simp [hm, entryMatches, hg]
          · simp [hm, entryMatches, hg]

/-- C5: when the registry fetch yields `entries` and every live-timestamp
fetch succeeds, `validate_changes_collection` compares, entry by entry,
the string rendering of the live timestamp with the string rendering of
the recorded `last_modified`; it checks every entry, completes normally
when all of them match, and raises the generic `ValueError` — one naming
no offending entry — exactly when at least one comparison differs. -/
theorem validate_changes_collection_generic_error_iff_mismatch
    (env : ChangesEnv) (entries : List ChangeEntry)
    (hreg : env.getChangeRecords = .ok entries)
    (hok : ∀ entry ∈ entries,
      (env.getRecordsTimestamp entry.bucket entry.collection).isOk = true) :
    validate_changes_collection env =
      if entries.all (entryMatches env) then .ok ()
      else .error (.valueError "One of the collection did not validate.") := by
  unfold validate_changes_collection
  simp only [hreg]
  rw [changesLoop_eq_of_ok env entries true hok]
  by_cases hall : entries.all (entryMatches env)
  · simp [hall]
  · simp [hall]

/-- A concrete consistency-check environment: the registry lists two
entries; the live timestamp of `A/X` matches its recorded value as a
string (an integer ETag against a string record), the live timestamp of
`A/Y` does not. -/
def demoChangesEnv : ChangesEnv :=
  { getChangeRecords := .ok [⟨"A", "X", .str "100"⟩, ⟨"A", "Y", .int 100⟩],
    getRecordsTimestamp := fun _ c =>
      if c = "X" then .ok (.int 100) else .ok (.int 101) }

/-- C5 witness: the characterization at the concrete environment (whose
second entry mismatches, so the run raises the generic error). -/
theorem validate_changes_collection_generic_error_iff_mismatch_witness :
    validate_changes_collection demoChangesEnv =
      if [(⟨"A", "X", .str "100"⟩ : ChangeEntry), ⟨"A", "Y", .int 100⟩].all
          (entryMatches demoChangesEnv) then .ok ()
      else .error (.valueError "One of the collection did not validate.") :=
  validate_changes_collection_generic_error_iff_mismatch demoChangesEnv
    [⟨"A", "X", .str "100"⟩, ⟨"A", "Y", .int 100⟩] rfl
    (by intro entry he; fin_cases he <;> rfl)

/-- Helper for C10: `splitOnce` ignores a separator-free head. -/
theorem splitOnce_of_not_mem (sep : Char) :
    ∀ (l : List Char), sep ∉ l → splitOnce sep l = none
  | [], _ => rfl
  | c :: cs, h => by
      rw [splitOnce]
      have hc : ¬ c = sep := fun hcs => h (hcs ▸ List.mem_cons_self c cs)
      rw [if_neg hc, splitOnce_of_not_mem sep cs
        (fun hm => h (List.mem_cons_of_mem c hm))]

/-- Helper for C10: `splitOnce` splits at the first separator. -/
theorem splitOnce_append (sep : Char) :
    ∀ (a b : List Char), sep ∉ a →
      splitOnce sep (a ++ sep :: b) = some (a, b)
  | [], b, _ => by simp [splitOnce]
  | c :: cs, b, h => by
      rw [List.cons_append, splitOnce]
      have hc : ¬ c = sep := fun hcs => h (hcs ▸ List.mem_cons_self c cs)
      rw [if_neg hc, splitOnce_append sep cs b
        (fun hm => h (List.mem_cons_of_mem c hm))]

/-- C10: the write credentials are split at the first `':'` only — for a
credential of the form `user:rest` with a colon-free user part, the
result is the pair `(user, rest)` even when `rest` itself contains
colons, so a secret containing `':'` is preserved intact; a credential
containing no colon yields a one-element tuple instead of a pair. -/
theorem refreshSignatureAuth_splits_at_first_colon :
    (∀ user rest : String, ':' ∉ user.data →
        refreshSignatureAuth (user ++ ":" ++ rest) = [user, rest]) ∧
      (∀ s : String, ':' ∉ s.data → refreshSignatureAuth s = [s]) := by
  constructor
  · intro user rest h
    have hdata : (user ++ ":" ++ rest).data = user.data ++ ':' :: rest.data := by
      simp [String.data_append]
    rw [refreshSignatureAuth, pySplit1, hdata, splitOnce_append ':' _ _ h]
  · intro s h
    rw [refreshSignatureAuth, pySplit1, splitOnce_of_not_mem ':' s.data h]

/-- C10 witness: concrete credentials — a secret containing a colon is
kept whole, and a colon-free credential yields a single component. -/
theorem refreshSignatureAuth_splits_at_first_colon_witness :
    refreshSignatureAuth ("user" ++ ":" ++ "sec:ret") = ["user", "sec:ret"] ∧
      refreshSignatureAuth "nocolon" = ["nocolon"] :=
  ⟨refreshSignatureAuth_splits_at_first_colon.1 "user" "sec:ret" (by decide),
   refreshSignatureAuth_splits_at_first_colon.2 "nocolon" (by decide)⟩

end AwsLambda
